import Mathlib

/-!
Verification of the RSS feed extension (`_ext/rss.py`).

The extension turns Sphinx page metadata into an RSS 2.0 feed:
`RSSItem` (one feed entry), `RSSFeed` (the document), and
`generate_tutorials_feed` (the build step).  Python's `datetime` values are
embedded as records of wall-clock fields plus an optional fixed-offset zone
(minutes east of UTC); `None` models a naive datetime.  Fallible code is
embedded in `Except RSSError`; the error constructors follow the design
taxonomy (KeyError on a metadata lookup is `MissingField`, ValueError from
`datetime.fromisoformat` is `ParseError`, FileNotFoundError from `stat` is
`NotFound`).  Timestamps carry microsecond precision, as Python's do; the
RFC 2822 rendering ignores the sub-second field (as `format_datetime`
does), while the sort order observes it. -/

/-- Proleptic-Gregorian leap-year test, as in CPython's `datetime` module. -/
def isLeapYear (y : Nat) : Bool :=
  (y % 4 == 0 && y % 100 != 0) || (y % 400 == 0)

/-- Length of month `m` (1-12) in year `y`. -/
def daysInMonth (y m : Nat) : Nat :=
  if m = 2 then (if isLeapYear y then 29 else 28)
  else if m = 4 ∨ m = 6 ∨ m = 9 ∨ m = 11 then 30
  else 31

/-- Days in year `y` strictly before month `m`. -/
def daysBeforeMonth (y m : Nat) : Nat :=
  (List.range (m - 1)).foldl (fun acc i => acc + daysInMonth y (i + 1)) 0

/-- Proleptic-Gregorian ordinal of the date `y-m-d`, day 1 being 0001-01-01,
matching CPython's `datetime.toordinal`. -/
def toOrdinal (y m d : Nat) : Nat :=
  let py := y - 1
  365 * py + py / 4 - py / 100 + py / 400 + daysBeforeMonth y m + d

/-- Ordinal of the Unix epoch 1970-01-01 in the proleptic-Gregorian count. -/
def epochOrdinal : Nat := 719163

/-- Walk at most `fuel` months forward converting a 1-based day-of-year into a
month/day pair.  Used by `fromOrdinal`. -/
def monthDayGo (y : Nat) : Nat → Nat → Nat → Nat × Nat
  | 0, m, d => (m, d)
  | fuel + 1, m, d =>
      if d ≤ daysInMonth y m then (m, d)
      else monthDayGo y fuel (m + 1) (d - daysInMonth y m)

/-- Inverse of `toOrdinal`, following CPython's `_ord2ymd` decomposition into
400-, 100-, 4- and 1-year cycles. -/
def fromOrdinal (n : Nat) : Nat × Nat × Nat :=
  let n0 := n - 1
  let n400 := n0 / 146097
  let r1 := n0 % 146097
  let n100 := r1 / 36524
  let r2 := r1 % 36524
  let n4 := r2 / 1461
  let r3 := r2 % 1461
  let n1 := r3 / 365
  let r4 := r3 % 365
  let year := n400 * 400 + n100 * 100 + n4 * 4 + n1 + 1
  if n1 = 4 ∨ n100 = 4 then (year - 1, 12, 31)
  else
    let (m, d) := monthDayGo year 12 1 (r4 + 1)
    (year, m, d)

/-- Embedding of a Python `datetime`: wall-clock fields and an optional
fixed-offset timezone in minutes east of UTC (`none` = naive). -/
structure Datetime where
  year : Nat
  month : Nat
  day : Nat
  hour : Nat
  minute : Nat
  second : Nat
  microsecond : Nat
  tzOffsetMinutes : Option Int
deriving DecidableEq, Repr

/-- Seconds from the Unix epoch to the wall-clock fields of `dt`, ignoring any
attached zone. -/
def Datetime.fieldsSeconds (dt : Datetime) : Int :=
  ((toOrdinal dt.year dt.month dt.day : Int) - (epochOrdinal : Int)) * 86400
    + dt.hour * 3600 + dt.minute * 60 + dt.second

/-- The absolute instant of `dt` as seconds from the Unix epoch; a naive
datetime is read at offset zero. -/
def Datetime.toUtcEpoch (dt : Datetime) : Int :=
  dt.fieldsSeconds - (dt.tzOffsetMinutes.getD 0) * 60

/-- The microsecond-resolution score that linearizes Python's `datetime`
comparison on the pairs Python accepts: on two naive datetimes its order
coincides with the lexicographic field order (`Datetime.fieldsLt`; the
agreement is the theorem `sortVal_lt_of_fieldsLt`, valid for in-range
fields), and on two aware datetimes it is the absolute instant by which
Python compares them.  Python raises TypeError when a naive and an aware
datetime meet (`datesComparable` names the lists on which `sorted`
completes); on a mixed pair this total function is an arbitrary default that
no theorem relies on. -/
def Datetime.sortVal (dt : Datetime) : Int :=
  dt.toUtcEpoch * 1000000 + dt.microsecond

/-- Field ranges accepted by the Python `datetime` constructor. -/
def Datetime.Valid (dt : Datetime) : Prop :=
  1 ≤ dt.year ∧ dt.year ≤ 9999 ∧ 1 ≤ dt.month ∧ dt.month ≤ 12 ∧
  1 ≤ dt.day ∧ dt.day ≤ daysInMonth dt.year dt.month ∧
  dt.hour < 24 ∧ dt.minute < 60 ∧ dt.second < 60 ∧ dt.microsecond < 1000000

instance (dt : Datetime) : Decidable dt.Valid := by
  unfold Datetime.Valid; infer_instance

/-- Naive datetime from a whole-second epoch timestamp shifted by `offMin`
minutes; this is `datetime.fromtimestamp` with the process-local zone at
that offset (the result carries no tzinfo; the environment model supplies
`st_mtime` in whole seconds, so the microsecond field is zero). -/
def datetimeFromTimestamp (t : Int) (offMin : Int) : Datetime :=
  let localSecs := t + offMin * 60
  let days := Int.fdiv localSecs 86400
  let secs := (Int.emod localSecs 86400).toNat
  let ord := ((epochOrdinal : Int) + days).toNat
  let ymd := fromOrdinal ord
  { year := ymd.1, month := ymd.2.1, day := ymd.2.2,
    hour := secs / 3600, minute := secs % 3600 / 60, second := secs % 60,
    microsecond := 0, tzOffsetMinutes := none }

/-- `dt.astimezone(UTC)`: the same absolute instant re-expressed in UTC.  A
naive datetime is returned unchanged (its "UTC equivalent" under the reading
of the specification that a zoneless timestamp already denotes its own
instant). -/
def astimezoneUTC (dt : Datetime) : Datetime :=
  match dt.tzOffsetMinutes with
  | none => dt
  | some _ =>
      { datetimeFromTimestamp dt.toUtcEpoch 0 with
        microsecond := dt.microsecond, tzOffsetMinutes := some 0 }

/-- Abbreviated weekday name of a proleptic-Gregorian ordinal; ordinal 1
(0001-01-01) is a Monday. -/
def dayOfWeekName (ord : Nat) : String :=
  match ord % 7 with
  | 1 => "Mon"
  | 2 => "Tue"
  | 3 => "Wed"
  | 4 => "Thu"
  | 5 => "Fri"
  | 6 => "Sat"
  | _ => "Sun"

/-- Abbreviated month name, `monthName 1 = "Jan"`. -/
def monthName (m : Nat) : String :=
  match m with
  | 1 => "Jan" | 2 => "Feb" | 3 => "Mar" | 4 => "Apr"
  | 5 => "May" | 6 => "Jun" | 7 => "Jul" | 8 => "Aug"
  | 9 => "Sep" | 10 => "Oct" | 11 => "Nov" | _ => "Dec"

/-- Zero-padded two-digit decimal. -/
def pad2 (n : Nat) : String :=
  if n < 10 then "0" ++ toString n else toString n

/-- Zero-padded four-digit decimal. -/
def pad4 (n : Nat) : String :=
  if n < 10 then "000" ++ toString n
  else if n < 100 then "00" ++ toString n
  else if n < 1000 then "0" ++ toString n
  else toString n

/-- `email.utils.format_datetime(dt, usegmt=True)`: RFC 2822 formatting of the
wall-clock fields with the literal `GMT` designator.  With `usegmt` the
function demands an aware UTC datetime and prints its fields followed by
`GMT`; `_format_rfc_2822` establishes that precondition by stamping UTC
first. -/
def format_datetime (dt : Datetime) : String :=
  dayOfWeekName (toOrdinal dt.year dt.month dt.day) ++ ", " ++
    pad2 dt.day ++ " " ++ monthName dt.month ++ " " ++ pad4 dt.year ++ " " ++
    pad2 dt.hour ++ ":" ++ pad2 dt.minute ++ ":" ++ pad2 dt.second ++ " GMT"

/-- `_format_rfc_2822` from `rss.py`: `dt.replace(tzinfo=UTC)` followed by
`format_datetime(..., usegmt=True)`.  Note `replace` substitutes the zone
label while keeping the wall-clock fields; it performs no instant
conversion. -/
def _format_rfc_2822 (dt : Datetime) : String :=
  let datetime := { dt with tzOffsetMinutes := some (0 : Int) }
  format_datetime datetime

/-- Numeric value of a decimal digit character. -/
def digitVal (c : Char) : Option Nat :=
  if '0' ≤ c ∧ c ≤ '9' then some (c.toNat - 48) else none

/-- Parse exactly two decimal digits. -/
def parse2 : List Char → Option (Nat × List Char)
  | a :: b :: rest => do
      let x ← digitVal a
      let y ← digitVal b
      pure (10 * x + y, rest)
  | _ => none

/-- Parse exactly four decimal digits. -/
def parse4 : List Char → Option (Nat × List Char)
  | a :: b :: c :: d :: rest => do
      let x ← digitVal a
      let y ← digitVal b
      let z ← digitVal c
      let w ← digitVal d
      pure (1000 * x + 100 * y + 10 * z + w, rest)
  | _ => none

/-- Require character `c` next. -/
def expectChar (c : Char) : List Char → Option (List Char)
  | x :: rest => if x = c then some rest else none
  | [] => none

/-- Parse one to six fractional-second digits into microseconds, as
`fromisoformat` reads them: a k-digit fraction scales by 10^(6-k); more than
six digits (or none after the point) is a ValueError. -/
def parseFrac (cs : List Char) : Option (Nat × List Char) :=
  let ds := cs.takeWhile fun c => (digitVal c).isSome
  let rest := cs.dropWhile fun c => (digitVal c).isSome
  if 1 ≤ ds.length ∧ ds.length ≤ 6 then
    some ((ds.foldl (fun a c => a * 10 + (digitVal c).getD 0) 0) * 10 ^ (6 - ds.length),
          rest)
  else none

/-- Parse an optional trailing UTC offset: nothing (naive), `Z`, or
`+HH:MM` / `-HH:MM`.  Returns minutes east of UTC. -/
def parseTzSuffix : List Char → Option (Option Int)
  | [] => some none
  | 'Z' :: [] => some (some 0)
  | c :: rest =>
      if c = '+' ∨ c = '-' then do
        let (h, rest1) ← parse2 rest
        let rest2 ← expectChar ':' rest1
        let (m, rest3) ← parse2 rest2
        guard rest3.isEmpty
        guard (h < 24 ∧ m < 60)
        let total : Int := h * 60 + m
        pure (some (if c = '-' then -total else total))
      else none

/-- Parse the `[:MM[:SS[.ffffff]]]` tail of a time, returning minute, second,
microsecond and the rest. -/
def parseMinSec (cs : List Char) : Option (Nat × Nat × Nat × List Char) :=
  match expectChar ':' cs with
  | none => some (0, 0, 0, cs)
  | some cs1 => do
      let (mi, cs2) ← parse2 cs1
      match expectChar ':' cs2 with
      | none => pure (mi, 0, 0, cs2)
      | some cs3 => do
          let (se, cs4) ← parse2 cs3
          match cs4 with
          | '.' :: frac => do
              let (us, cs5) ← parseFrac frac
              pure (mi, se, us, cs5)
          | _ => pure (mi, se, 0, cs4)

/-- Embedding of `datetime.fromisoformat` on the profile this extension can
meet: `YYYY-MM-DD`, optionally a single separator character and
`HH[:MM[:SS[.ffffff]]]`, optionally `Z` or `±HH:MM`.  Field ranges are
validated as the Python constructor does; a malformed string yields
`none` (ValueError). -/
def fromisoformatOpt (s : String) : Option Datetime := do
  let cs := s.data
  let (y, cs1) ← parse4 cs
  let cs2 ← expectChar '-' cs1
  let (mo, cs3) ← parse2 cs2
  let cs4 ← expectChar '-' cs3
  let (d, cs5) ← parse2 cs4
  guard (1 ≤ y ∧ 1 ≤ mo ∧ mo ≤ 12 ∧ 1 ≤ d ∧ d ≤ daysInMonth y mo)
  match cs5 with
  | [] => pure ⟨y, mo, d, 0, 0, 0, 0, none⟩
  | _sep :: cs6 => do
      let (h, cs7) ← parse2 cs6
      let (mi, se, us, cs8) ← parseMinSec cs7
      guard (h < 24 ∧ mi < 60 ∧ se < 60)
      let tz ← parseTzSuffix cs8
      pure ⟨y, mo, d, h, mi, se, us, tz⟩

/-- `html.escape` on one character.  `html.escape` replaces `&` first and then
`<`, `>` (and with `quote=True` also the two quote characters); since none of
the replacement texts is itself re-scanned, the sequential `str.replace`
calls act independently per input character, which is what this map states. -/
def escapeChar (quote : Bool) (c : Char) : String :=
  if c = '&' then "&amp;"
  else if c = '<' then "&lt;"
  else if c = '>' then "&gt;"
  else if quote ∧ c = '"' then "&quot;"
  else if quote ∧ c = '\'' then "&#x27;"
  else String.singleton c

/-- Embedding of `html.escape`. -/
def escape (s : String) (quote : Bool) : String :=
  String.join (s.data.map (escapeChar quote))

/-- Python's `str.startswith`. -/
def startswith (s p : String) : Bool :=
  p.data.isPrefixOf s.data

/-- Everything of `s` up to and including the last `/`. -/
def dropLastSegment (s : String) : String :=
  ⟨(s.data.reverse.dropWhile fun c => c ≠ '/').reverse⟩

/-- Embedding of `urllib.parse.urljoin` on the shapes this extension feeds
it: an absolute `http(s)` base and either an absolute reference (which wins)
or a plain relative path (which replaces the last segment of the base).
Query/fragment and dot-segment resolution are outside the profile; no claim
constrains them. -/
def urljoin (base url : String) : String :=
  if url = "" then base
  else if startswith url "http://" ∨ startswith url "https://" then url
  else dropLastSegment base ++ url

/-- Error taxonomy of the extension, named as in the design document.
`MissingField k` embeds the KeyError raised by `meta[k]`; `ParseError s`
the ValueError of `datetime.fromisoformat(s)`; `NotFound p` the
FileNotFoundError of `Path(p).stat()`. -/
inductive RSSError where
  | MissingField : String → RSSError
  | ParseError : String → RSSError
  | NotFound : String → RSSError
deriving DecidableEq, Repr

instance {ε α} [DecidableEq ε] [DecidableEq α] : DecidableEq (Except ε α)
  | Except.error a, Except.error b =>
      if h : a = b then isTrue (by rw [h])
      else isFalse (fun hc => by cases hc; exact h rfl)
  | Except.error _, Except.ok _ => isFalse (fun hc => Except.noConfusion hc)
  | Except.ok _, Except.error _ => isFalse (fun hc => Except.noConfusion hc)
  | Except.ok a, Except.ok b =>
      if h : a = b then isTrue (by rw [h])
      else isFalse (fun hc => by cases hc; exact h rfl)

/-- A page's metadata mapping (`app.builder.env.metadata[page]`): string keys
to string values, unique keys, insertion-ordered. -/
abbrev Meta := List (String × String)

/-- `datetime.fromisoformat` as the extension observes it: a malformed string
raises (ParseError). -/
def fromisoformat (s : String) : Except RSSError Datetime :=
  match fromisoformatOpt s with
  | some dt => Except.ok dt
  | none => Except.error (RSSError.ParseError s)

/-- The slice of the Sphinx application the extension touches:
`html_baseurl` and `srcdir` from configuration, the builder's
`get_target_uri`, the environment's page-metadata mapping (as an
insertion-ordered association list, the order `for t in metadata` iterates
in), the output directory, and the filesystem/clock facts the run depends
on: `mtime` gives a source file's `st_mtime` in whole epoch seconds (`none`
when `stat` raises FileNotFoundError), `localOffsetMinutes` is the process
zone `datetime.fromtimestamp` converts with, and `classDefNow` is the value
`datetime.now()` produced when the `RSSFeed` class body was executed
at module load. -/
structure App where
  html_baseurl : String
  get_target_uri : String → String
  srcdir : String
  outdir : String
  mtime : String → Option Int
  localOffsetMinutes : Int
  metadata : List (String × Meta)
  classDefNow : Datetime

/-- `RSSItem` from `rss.py`: one feed entry. -/
structure RSSItem where
  title : String
  date : Datetime
  description : String
  url : String
  author : String := "pyOpenSci"
deriving DecidableEq, Repr

/-- `RSSItem.get_date_updated`: an explicit `date_updated` metadata value is
parsed as ISO-8601; otherwise the page's source file
(`srcdir / (page_name + ".md")`) is stat'ed and its mtime converted by
`datetime.fromtimestamp`. -/
def RSSItem.get_date_updated (page_name : String) (meta : Meta) (app : App) :
    Except RSSError Datetime :=
  match meta.lookup "date_updated" with
  | some s => fromisoformat s
  | none =>
      let page_path := app.srcdir ++ "/" ++ page_name ++ ".md"
      match app.mtime page_path with
      | some t => Except.ok (datetimeFromTimestamp t app.localOffsetMinutes)
      | none => Except.error (RSSError.NotFound page_path)

/-- `RSSItem.from_meta`: the constructor arguments are evaluated in source
order — url resolution, then the two indexing reads (`meta[":og:title"]`,
`meta[":og:description"]`, deliberately not `get`, so an absent key raises),
then the date, then the optional author. -/
def RSSItem.from_meta (page_name : String) (meta : Meta) (app : App) :
    Except RSSError RSSItem := do
  let url := urljoin app.html_baseurl (app.get_target_uri page_name)
  let title ← match meta.lookup ":og:title" with
    | some v => pure v
    | none => throw (RSSError.MissingField ":og:title")
  let description ← match meta.lookup ":og:description" with
    | some v => pure v
    | none => throw (RSSError.MissingField ":og:description")
  let date ← RSSItem.get_date_updated page_name meta app
  let author := (meta.lookup ":og:author").getD "pyOpenSci"
  pure { title := title, date := date, description := description,
         url := url, author := author }

/-- `RSSItem.render`: the `<item>` fragment.  `title`, `link`, `description`
and `author` pass through `escape(..., quote=False)`; the guid carries the
url verbatim. -/
def RSSItem.render (i : RSSItem) : String :=
  "<item>\n  <title>" ++ escape i.title false ++
  "</title>\n  <link>" ++ escape i.url false ++
  "</link>\n  <description>" ++ escape i.description false ++
  "</description>\n  <author>" ++ escape i.author false ++
  "</author>\n  <guid isPermaLink=\"true\">" ++ i.url ++
  "</guid>\n  <pubDate>" ++ _format_rfc_2822 i.date ++
  "</pubDate>\n</item>"

/-- `RSSFeed` from `rss.py`.  `last_build_date` carries the dataclass
default, see `RSSFeed.last_build_date_default`. -/
structure RSSFeed where
  items : List RSSItem
  last_build_date : Datetime
  title : String := "pyOpenSci Tutorials"
  link : String := "https://www.pyopensci.org/python-package-guide/tutorials/intro.html"
  self_link : String := "https://www.pyopensci.org/python-package-guide/tutorials.rss"
  description : String := "A tutorial feed that lists metadata for the pyOpenSci Python packaging tutorials so we can automatically list them on our website."
  language : String := "en"
deriving DecidableEq, Repr

/-- The dataclass default of `last_build_date`.  Python evaluates a dataclass
field default expression once, when the `class` statement executes at import
time, so `last_build_date: datetime = datetime.now()` captures the
import-time clock a single time and every construction that omits the field
receives that same captured value.  `classDefNow` is the captured reading. -/
def RSSFeed.last_build_date_default (classDefNow : Datetime) : Datetime :=
  classDefNow

/-- `RSSFeed(items=...)` leaving `last_build_date` to its default, as
`generate_tutorials_feed` does.  `now_at_construction` is the clock reading
at the moment the constructor runs; under the dataclass-default semantics
above it does not enter the result. -/
def RSSFeed.mkDefault (classDefNow : Datetime) (items : List RSSItem)
    (now_at_construction : Datetime) : RSSFeed :=
  { items := items,
    last_build_date := RSSFeed.last_build_date_default classDefNow }

/-- The comparison realised by
`sorted(self.items, key=lambda i: i.date, reverse=True)` where the sort
completes: `a` may precede `b` iff `b`'s date is not after `a`'s.  On a
list whose dates are all naive or all aware (`datesComparable`, the domain
on which Python's sort does not raise TypeError) `sortVal` scores exactly
Python's datetime order, and Python's sort and `List.mergeSort` are both
stable sorts of that total preorder, so they produce the same list; see
`pySortedDesc` for the raising executions. -/
def itemLe (a b : RSSItem) : Bool :=
  decide (b.date.sortVal ≤ a.date.sortVal)

/-- The fresh, descending-by-date list that `RSSFeed.render` builds from
`self.items` and joins into the document. -/
def RSSFeed.sortedItems (f : RSSFeed) : List RSSItem :=
  f.items.mergeSort itemLe

/-- `RSSFeed.render`: the channel template around the newline-joined sorted
items. -/
def RSSFeed.render (f : RSSFeed) : String :=
  let items := String.intercalate "\n" (f.sortedItems.map RSSItem.render)
  "<?xml version='1.0' encoding='UTF-8'?>\n<rss xmlns:atom=\"http://www.w3.org/2005/Atom\" xmlns:content=\"http://purl.org/rss/1.0/modules/content/\" version=\"2.0\">\n  <channel>\n    <title>" ++
  f.title ++ "</title>\n    <link>" ++ f.link ++
  "</link>\n    <atom:link href=\"" ++ f.self_link ++
  "\" rel=\"self\"/>\n    <description>" ++ f.description ++
  "</description>\n    <language>" ++ f.language ++
  "</language>\n    <lastBuildDate>" ++ _format_rfc_2822 f.last_build_date ++
  "</lastBuildDate>\n" ++ items ++ "\n  </channel>\n</rss>\n        "

/-- The `render` method with the receiver threaded as explicit state.  The
body's only effects are local: `sorted(...)` allocates a fresh list bound to
the local name `items` (later rebound to the joined string); no statement
assigns to `self` or mutates `self.items`.  The post-state is therefore the
receiver unchanged. -/
def RSSFeed.renderState (self : RSSFeed) : String × RSSFeed :=
  let items := self.items.mergeSort itemLe
  let itemsStr := String.intercalate "\n" (items.map RSSItem.render)
  ("<?xml version='1.0' encoding='UTF-8'?>\n<rss xmlns:atom=\"http://www.w3.org/2005/Atom\" xmlns:content=\"http://purl.org/rss/1.0/modules/content/\" version=\"2.0\">\n  <channel>\n    <title>" ++
   self.title ++ "</title>\n    <link>" ++ self.link ++
   "</link>\n    <atom:link href=\"" ++ self.self_link ++
   "\" rel=\"self\"/>\n    <description>" ++ self.description ++
   "</description>\n    <language>" ++ self.language ++
   "</language>\n    <lastBuildDate>" ++ _format_rfc_2822 self.last_build_date ++
   "</lastBuildDate>\n" ++ itemsStr ++ "\n  </channel>\n</rss>\n        ",
   self)

/-- Evaluation of the list comprehension `[f(t) for t in ts]` when `f` may
raise: elements are produced left to right and the first error aborts the
whole comprehension. -/
def mapExcept {α β ε} (f : α → Except ε β) : List α → Except ε (List β)
  | [] => Except.ok []
  | t :: ts => do
      let b ← f t
      let rest ← mapExcept f ts
      pure (b :: rest)

/-- The keys of `app.builder.env.metadata`, in iteration order. -/
def pageNames (app : App) : List String := app.metadata.map Prod.fst

/-- `[t for t in metadata if t.startswith("tutorials/")]`. -/
def tutorialPages (app : App) : List String :=
  (pageNames app).filter (fun t => startswith t "tutorials/")

/-- `metadata[t]`; pages drawn from `tutorialPages` always have an entry. -/
def metaOf (app : App) (t : String) : Meta :=
  (app.metadata.lookup t).getD []

/-- `generate_tutorials_feed`: select the tutorial pages, build the items
(first construction failure aborts), assemble the feed with the default
build timestamp, render, and return the single filesystem write
`(outdir / "tutorials.rss", contents)`.  An error result models the
exception propagating before the output file is opened: nothing is
written. -/
def generate_tutorials_feed (app : App) : Except RSSError (String × String) := do
  let tutorials := tutorialPages app
  let feed_items ← mapExcept (fun t => RSSItem.from_meta t (metaOf app t) app) tutorials
  let feed : RSSFeed :=
    { items := feed_items,
      last_build_date := RSSFeed.last_build_date_default app.classDefNow }
  pure (app.outdir ++ "/tutorials.rss", feed.render)

/-- `sub` occurs contiguously in `s`. -/
def strContains (s sub : String) : Prop :=
  ∃ pre post : List Char, s.data = pre ++ sub.data ++ post

/-- Concrete build environment for the closed evaluation theorems: a
non-tutorial page, a tutorial page with an explicit `date_updated`, and a
tutorial page that falls back to its source file's mtime
(1705309200 = 2024-01-15T09:00:00Z, with the process in UTC). -/
def appW : App :=
  { html_baseurl := "https://www.pyopensci.org/python-package-guide/"
    get_target_uri := fun p => p ++ ".html"
    srcdir := "/src"
    outdir := "/out"
    mtime := fun p => if p = "/src/tutorials/b.md" then some 1705309200 else none
    localOffsetMinutes := 0
    metadata :=
      [("index", [(":og:title", "Home")]),
       ("tutorials/a",
         [(":og:title", "A"), (":og:description", "dA"),
          ("date_updated", "2024-01-15T10:00:00")]),
       ("tutorials/b", [(":og:title", "B"), (":og:description", "dB")])]
    classDefNow := ⟨2024, 1, 1, 0, 0, 0, 0, none⟩ }

/-- Like `appW` but the only tutorial page lacks `:og:title`. -/
def appBad : App :=
  { appW with metadata := [("tutorials/c", [(":og:description", "d")])] }

/-- The entry `from_meta` builds for `appW`'s page `tutorials/a`. -/
def itemA : RSSItem :=
  { title := "A", date := ⟨2024, 1, 15, 10, 0, 0, 0, none⟩, description := "dA",
    url := "https://www.pyopensci.org/python-package-guide/tutorials/a.html",
    author := "pyOpenSci" }

/-- The entry `from_meta` builds for `appW`'s page `tutorials/b`. -/
def itemB : RSSItem :=
  { title := "B", date := ⟨2024, 1, 15, 9, 0, 0, 0, none⟩, description := "dB",
    url := "https://www.pyopensci.org/python-package-guide/tutorials/b.html",
    author := "pyOpenSci" }

/-- The strict part of Python's comparison of two naive datetimes:
lexicographic on (year, month, day, hour, minute, second, microsecond),
exactly as CPython compares the field tuples. -/
def Datetime.fieldsLt (a b : Datetime) : Prop :=
  a.year < b.year
  ∨ (a.year = b.year ∧ (a.month < b.month
  ∨ (a.month = b.month ∧ (a.day < b.day
  ∨ (a.day = b.day ∧ (a.hour < b.hour
  ∨ (a.hour = b.hour ∧ (a.minute < b.minute
  ∨ (a.minute = b.minute ∧ (a.second < b.second
  ∨ (a.second = b.second ∧ a.microsecond < b.microsecond)))))))))))

instance (a b : Datetime) : Decidable (a.fieldsLt b) := by
  unfold Datetime.fieldsLt; infer_instance

/-- Python's `<=` on a pair of datetimes it can compare: two naive datetimes
compare lexicographically by fields (`a ≤ b` iff not `b < a`), two aware
ones by their absolute instant.  On a naive/aware pair Python raises
TypeError instead of answering; no theorem applies `pyLe` to such a pair. -/
def Datetime.pyLe (a b : Datetime) : Prop :=
  match a.tzOffsetMinutes, b.tzOffsetMinutes with
  | none, none => ¬ Datetime.fieldsLt b a
  | some _, some _ => a.sortVal ≤ b.sortVal
  | _, _ => False

/-- The lists of entries on which `sorted(..., key=lambda i: i.date, ...)`
completes: all dates naive or all aware.  On a list containing both kinds
every comparison-based sort must eventually compare across the kinds, and
that comparison raises TypeError. -/
def datesComparable (items : List RSSItem) : Prop :=
  (∀ i ∈ items, i.date.tzOffsetMinutes = none)
  ∨ (∀ i ∈ items, i.date.tzOffsetMinutes ≠ none)

instance (items : List RSSItem) : Decidable (datesComparable items) := by
  unfold datesComparable; infer_instance

/-- The outcome of `sorted(self.items, key=lambda i: i.date, reverse=True)`
in Python: the stable descending list when the dates are pairwise
comparable, a TypeError otherwise.  `RSSFeed.sortedItems` (total, as the
embedding of the sort's list) agrees with the successful outcome, which is
the only one in which a document exists. -/
def pySortedDesc (items : List RSSItem) : Except String (List RSSItem) :=
  if datesComparable items then Except.ok (items.mergeSort itemLe)
  else Except.error "TypeError: cannot compare offset-naive and offset-aware datetimes"

/-- Metadata of a page whose `date_updated` carries a UTC offset, making
`fromisoformat` return an aware datetime. -/
def metaTz : Meta :=
  [(":og:title", "T"), (":og:description", "dT"),
   ("date_updated", "2024-01-15T10:00:00+01:00")]

/-- The entry `from_meta` builds from `metaTz`: its date is aware (UTC+01:00),
while mtime-fallback entries such as `itemB` are naive. -/
def itemTz : RSSItem :=
  { title := "T", date := ⟨2024, 1, 15, 10, 0, 0, 0, some 60⟩, description := "dT",
    url := "https://www.pyopensci.org/python-package-guide/tutorials/tz.html",
    author := "pyOpenSci" }

/-- A concrete feed with valid, all-naive dates, deliberately out of date
order (the older `itemB` first). -/
def feedW : RSSFeed :=
  { items := [itemB, itemA], last_build_date := ⟨2024, 1, 1, 0, 0, 0, 0, none⟩ }

/-- Days from 0001-01-01 to January 1 of year `y` (the year part of
`toOrdinal`). -/
def daysBeforeYear (y : Nat) : Nat :=
  365 * (y - 1) + (y - 1) / 4 - (y - 1) / 100 + (y - 1) / 400

theorem mapExcept_cons {α β ε} (f : α → Except ε β) (t : α) (ts : List α) :
    mapExcept f (t :: ts) =
      Except.bind (f t) (fun b =>
        Except.bind (mapExcept f ts) (fun rest => Except.ok (b :: rest))) := rfl

theorem mapExcept_error_of_mem {α β ε} (f : α → Except ε β) (l : List α) (x : α)
    (hx : x ∈ l) (e : ε) (he : f x = Except.error e) :
    ∃ e2, mapExcept f l = Except.error e2 := by
  induction l with
  | nil => cases hx
  | cons y ys ih =>
      cases hx with
      | head => exact ⟨e, by simp [mapExcept_cons, Except.bind, he]⟩
      | tail _ hmem =>
          cases hfy : f y with
          | error e3 => exact ⟨e3, by simp [mapExcept_cons, Except.bind, hfy]⟩
          | ok b =>
              obtain ⟨e2, h2⟩ := ih hmem
              exact ⟨e2, by simp [mapExcept_cons, Except.bind, hfy, h2]⟩

theorem mapExcept_ok_length {α β ε} (f : α → Except ε β) (l : List α) (ys : List β)
    (h : mapExcept f l = Except.ok ys) : ys.length = l.length := by
  induction l generalizing ys with
  | nil => simp [mapExcept] at h; simp [← h]
  | cons t ts ih =>
      cases hft : f t with
      | error e => simp [mapExcept_cons, Except.bind, hft] at h
      | ok b =>
          cases hrest : mapExcept f ts with
          | error e => simp [mapExcept_cons, Except.bind, hft, hrest] at h
          | ok rest =>
              simp [mapExcept_cons, Except.bind, hft, hrest] at h
              simp [← h, ih rest hrest]

theorem itemLe_trans (a b c : RSSItem) :
    itemLe a b = true → itemLe b c = true → itemLe a c = true := by
  intro hab hbc
  simp only [itemLe, decide_eq_true_eq] at *
  exact le_trans hbc hab

theorem itemLe_total (a b : RSSItem) : (itemLe a b || itemLe b a) = true := by
  simp only [itemLe, Bool.or_eq_true, decide_eq_true_eq]
  exact le_total b.date.sortVal a.date.sortVal

/-- C1: the claim reads "the rendered pubDate is the RFC 2822 formatting,
with the GMT designator, of that timestamp after conversion to UTC,
regardless of the attached zone".  It fails: `dt.replace(tzinfo=UTC)` keeps
the wall-clock fields and only swaps the zone label, so an aware non-UTC
timestamp is NOT formatted at its UTC instant.  At wall-clock 10:00 in zone
UTC+01:00 (instant 09:00 UTC) the code prints 10:00:00 GMT while the UTC
equivalent prints 09:00:00 GMT. -/
theorem c1_counterexample :
    ¬ (_format_rfc_2822 ⟨2024, 1, 15, 10, 0, 0, 0, some 60⟩ =
       _format_rfc_2822 (astimezoneUTC ⟨2024, 1, 15, 10, 0, 0, 0, some 60⟩)) := by
  decide

/-- C1 (amended): the rendered pubDate is the RFC 2822 GMT formatting of the
timestamp's wall-clock fields with the zone label replaced by UTC and no
instant conversion: the attached zone has no effect on the output, and for
a naive timestamp (the `replace` and the convert-to-UTC readings coincide
there) the output equals the formatting of its UTC equivalent. -/
theorem c1_format_rfc_2822_replaces_zone (dt : Datetime) :
    (∀ tz tz2 : Option Int,
        _format_rfc_2822 { dt with tzOffsetMinutes := tz } =
        _format_rfc_2822 { dt with tzOffsetMinutes := tz2 })
  ∧ (dt.tzOffsetMinutes = none →
        _format_rfc_2822 dt = _format_rfc_2822 (astimezoneUTC dt)) := by
  refine ⟨fun tz tz2 => rfl, fun h => ?_⟩
  simp [astimezoneUTC, h]

theorem c1_witness :
    _format_rfc_2822 ⟨2024, 1, 15, 10, 0, 0, 0, some 60⟩ =
      _format_rfc_2822 ⟨2024, 1, 15, 10, 0, 0, 0, some (-300)⟩
  ∧ _format_rfc_2822 ⟨2024, 1, 15, 10, 0, 0, 0, none⟩ =
      _format_rfc_2822 (astimezoneUTC ⟨2024, 1, 15, 10, 0, 0, 0, none⟩) :=
  ⟨(c1_format_rfc_2822_replaces_zone ⟨2024, 1, 15, 10, 0, 0, 0, none⟩).1
      (some 60) (some (-300)),
   (c1_format_rfc_2822_replaces_zone ⟨2024, 1, 15, 10, 0, 0, 0, none⟩).2 rfl⟩

/-- C2: the claim reads "a Feed constructed without an explicit build
timestamp captures the current time of that construction; two constructions
at different times capture different timestamps".  The code evaluates the
dataclass default `datetime.now()` once, at class definition: evaluated
here, constructions at the distinct clock readings 2024-06-01T12:00:00 and
2024-07-02T08:30:00 both receive the import-time value 2024-01-01T00:00:00,
equal to each other and different from either construction-time clock. -/
theorem c2_default_build_date_is_import_time :
    (RSSFeed.mkDefault ⟨2024, 1, 1, 0, 0, 0, 0, none⟩ []
        ⟨2024, 6, 1, 12, 0, 0, 0, none⟩).last_build_date = ⟨2024, 1, 1, 0, 0, 0, 0, none⟩
  ∧ (RSSFeed.mkDefault ⟨2024, 1, 1, 0, 0, 0, 0, none⟩ []
        ⟨2024, 6, 1, 12, 0, 0, 0, none⟩).last_build_date ≠ ⟨2024, 6, 1, 12, 0, 0, 0, none⟩
  ∧ (RSSFeed.mkDefault ⟨2024, 1, 1, 0, 0, 0, 0, none⟩ []
        ⟨2024, 6, 1, 12, 0, 0, 0, none⟩).last_build_date =
      (RSSFeed.mkDefault ⟨2024, 1, 1, 0, 0, 0, 0, none⟩ []
        ⟨2024, 7, 2, 8, 30, 0, 0, none⟩).last_build_date := by
  refine ⟨rfl, ?_, rfl⟩
  decide

/-- C3: if `:og:title` is absent, `from_meta` fails with `MissingField
":og:title"`; if `:og:title` resolves but `:og:description` is absent, it
fails with `MissingField ":og:description"`; if both are present and the
timestamp resolves, construction succeeds with exactly the looked-up values
(no silent defaults for the required fields; only `author` defaults). -/
theorem c3_required_fields (page : String) (meta : Meta) (app : App) :
    (meta.lookup ":og:title" = none →
        RSSItem.from_meta page meta app =
          Except.error (RSSError.MissingField ":og:title"))
  ∧ (∀ t, meta.lookup ":og:title" = some t →
        meta.lookup ":og:description" = none →
        RSSItem.from_meta page meta app =
          Except.error (RSSError.MissingField ":og:description"))
  ∧ (∀ t d dt, meta.lookup ":og:title" = some t →
        meta.lookup ":og:description" = some d →
        RSSItem.get_date_updated page meta app = Except.ok dt →
        RSSItem.from_meta page meta app = Except.ok
          { title := t, date := dt, description := d,
            url := urljoin app.html_baseurl (app.get_target_uri page),
            author := (meta.lookup ":og:author").getD "pyOpenSci" }) := by
  refine ⟨fun h1 => ?_, fun t h1 h2 => ?_, fun t d dt h1 h2 h3 => ?_⟩
  · simp only [RSSItem.from_meta, h1]; rfl
  · simp only [RSSItem.from_meta, h1, h2]; rfl
  · simp [RSSItem.from_meta, h1, h2, h3, Except.bind]

theorem c3_witness :
    RSSItem.from_meta "tutorials/x" [(":og:description", "d")] appW =
      Except.error (RSSError.MissingField ":og:title")
  ∧ RSSItem.from_meta "tutorials/x" [(":og:title", "t")] appW =
      Except.error (RSSError.MissingField ":og:description")
  ∧ RSSItem.from_meta "tutorials/a" (metaOf appW "tutorials/a") appW =
      Except.ok itemA :=
  ⟨(c3_required_fields "tutorials/x" [(":og:description", "d")] appW).1 (by decide),
   (c3_required_fields "tutorials/x" [(":og:title", "t")] appW).2.1 "t"
      (by decide) (by decide),
   (c3_required_fields "tutorials/a" (metaOf appW "tutorials/a") appW).2.2
      "A" "dA" ⟨2024, 1, 15, 10, 0, 0, 0, none⟩ (by decide) (by decide) (by decide)⟩

/-- C5: with a `date_updated` key the value is parsed as ISO-8601 (ParseError
if malformed, and neither the filesystem nor the fallback is consulted);
without it the source file `srcdir / (page + ".md")` is stat'ed, its mtime
becomes the timestamp, and a missing file is `NotFound` naming that path. -/
theorem c5_timestamp_resolution (page : String) (meta : Meta) (app : App) :
    (∀ s, meta.lookup "date_updated" = some s →
        (∀ dt, fromisoformatOpt s = some dt →
            RSSItem.get_date_updated page meta app = Except.ok dt)
      ∧ (fromisoformatOpt s = none →
            RSSItem.get_date_updated page meta app =
              Except.error (RSSError.ParseError s)))
  ∧ (meta.lookup "date_updated" = none →
        (∀ t, app.mtime (app.srcdir ++ "/" ++ page ++ ".md") = some t →
            RSSItem.get_date_updated page meta app =
              Except.ok (datetimeFromTimestamp t app.localOffsetMinutes))
      ∧ (app.mtime (app.srcdir ++ "/" ++ page ++ ".md") = none →
            RSSItem.get_date_updated page meta app =
              Except.error (RSSError.NotFound (app.srcdir ++ "/" ++ page ++ ".md")))) := by
  refine ⟨fun s hs => ⟨fun dt hdt => ?_, fun hbad => ?_⟩,
          fun hn => ⟨fun t ht => ?_, fun hmiss => ?_⟩⟩
  · simp [RSSItem.get_date_updated, hs, fromisoformat, hdt]
  · simp [RSSItem.get_date_updated, hs, fromisoformat, hbad]
  · simp [RSSItem.get_date_updated, hn, ht]
  · simp [RSSItem.get_date_updated, hn, hmiss]

theorem c5_witness :
    RSSItem.get_date_updated "tutorials/a" (metaOf appW "tutorials/a") appW =
      Except.ok ⟨2024, 1, 15, 10, 0, 0, 0, none⟩
  ∧ RSSItem.get_date_updated "tutorials/x" [("date_updated", "not-a-date")] appW =
      Except.error (RSSError.ParseError "not-a-date")
  ∧ RSSItem.get_date_updated "tutorials/b" (metaOf appW "tutorials/b") appW =
      Except.ok ⟨2024, 1, 15, 9, 0, 0, 0, none⟩
  ∧ RSSItem.get_date_updated "tutorials/x" [] appW =
      Except.error (RSSError.NotFound "/src/tutorials/x.md") :=
  ⟨((c5_timestamp_resolution "tutorials/a" (metaOf appW "tutorials/a") appW).1
      "2024-01-15T10:00:00" (by decide)).1 ⟨2024, 1, 15, 10, 0, 0, 0, none⟩ (by decide),
   ((c5_timestamp_resolution "tutorials/x" [("date_updated", "not-a-date")] appW).1
      "not-a-date" (by decide)).2 (by decide),
   ((c5_timestamp_resolution "tutorials/b" (metaOf appW "tutorials/b") appW).2
      (by decide)).1 1705309200 (by decide),
   ((c5_timestamp_resolution "tutorials/x" [] appW).2 (by decide)).2 (by decide)⟩

/-- C7: if `from_meta` fails for any selected page, the whole build step
fails: `generate_tutorials_feed` returns an error, so no feed document is
rendered and the single write `(outdir / "tutorials.rss", contents)` never
happens — there is no partial feed. -/
theorem c7_failure_aborts (app : App)
    (h : ∃ t ∈ tutorialPages app, ∃ e,
        RSSItem.from_meta t (metaOf app t) app = Except.error e) :
    ∃ e, generate_tutorials_feed app = Except.error e := by
  obtain ⟨t, ht, e, he⟩ := h
  obtain ⟨e2, h2⟩ :=
    mapExcept_error_of_mem (fun p => RSSItem.from_meta p (metaOf app p) app)
      (tutorialPages app) t ht e he
  exact ⟨e2, by simp [generate_tutorials_feed, h2, Except.bind]⟩

theorem c7_witness : ∃ e, generate_tutorials_feed appBad = Except.error e :=
  c7_failure_aborts appBad
    ⟨"tutorials/c", by decide, RSSError.MissingField ":og:title", by decide⟩

theorem toOrdinal_eq (y m d : Nat) :
    toOrdinal y m d = daysBeforeYear y + daysBeforeMonth y m + d := rfl

theorem daysBeforeMonth_succ (y m : Nat) (h : 1 ≤ m) :
    daysBeforeMonth y (m + 1) = daysBeforeMonth y m + daysInMonth y m := by
  unfold daysBeforeMonth
  obtain ⟨k, rfl⟩ : ∃ k, m = k + 1 := ⟨m - 1, by omega⟩
  simp only [Nat.add_sub_cancel]
  rw [List.range_succ, List.foldl_append]
  simp

theorem daysBeforeMonth_mono (y : Nat) {m m2 : Nat} (h1 : 1 ≤ m) (h : m ≤ m2) :
    daysBeforeMonth y m ≤ daysBeforeMonth y m2 := by
  induction m2 with
  | zero => omega
  | succ n ih =>
      by_cases he : m = n + 1
      · subst he; exact le_refl _
      · have hm : m ≤ n := by omega
        have hrec := ih hm
        have h2 := daysBeforeMonth_succ y n (by omega)
        omega

theorem daysBeforeMonth_13 (y : Nat) :
    daysBeforeMonth y 13 = if isLeapYear y then 366 else 365 := by
  unfold daysBeforeMonth
  rw [show List.range (13 - 1) = [0,1,2,3,4,5,6,7,8,9,10,11] from rfl]
  cases hleap : isLeapYear y <;> simp [List.foldl, daysInMonth, hleap]

theorem daysBeforeYear_succ (y : Nat) (h : 1 ≤ y) :
    daysBeforeYear (y + 1) =
      daysBeforeYear y + 365 + (if isLeapYear y then 1 else 0) := by
  obtain ⟨py, rfl⟩ : ∃ py, y = py + 1 := ⟨y - 1, by omega⟩
  unfold daysBeforeYear isLeapYear
  simp only [Nat.add_sub_cancel]
  rw [Nat.succ_div py 4, Nat.succ_div py 100, Nat.succ_div py 400]
  have d4 : py / 100 ≤ py / 4 := Nat.div_le_div_left (by norm_num) (by norm_num)
  have d1 : py / 4 ≤ py := Nat.div_le_self py 4
  have d2 : py / 400 ≤ py := Nat.div_le_self py 400
  have d3 : py / 100 ≤ py := Nat.div_le_self py 100
  simp only [Nat.dvd_iff_mod_eq_zero, Bool.or_eq_true, Bool.and_eq_true,
    beq_iff_eq, bne_iff_ne, ne_eq]
  split_ifs <;> omega

theorem daysBeforeYear_mono {y y2 : Nat} (h1 : 1 ≤ y) (h : y ≤ y2) :
    daysBeforeYear y ≤ daysBeforeYear y2 := by
  induction y2 with
  | zero => omega
  | succ n ih =>
      by_cases he : y = n + 1
      · subst he; exact le_refl _
      · have hy : y ≤ n := by omega
        have hrec := ih hy
        have h2 := daysBeforeYear_succ n (by omega)
        split_ifs at h2 <;> omega

theorem toOrdinal_lt {y mo d y2 mo2 d2 : Nat}
    (hy : 1 ≤ y) (hmo1 : 1 ≤ mo) (hmo2 : mo ≤ 12) (hd2 : d ≤ daysInMonth y mo)
    (hmo21 : 1 ≤ mo2) (hd21 : 1 ≤ d2)
    (h : y < y2 ∨ (y = y2 ∧ (mo < mo2 ∨ (mo = mo2 ∧ d < d2)))) :
    toOrdinal y mo d < toOrdinal y2 mo2 d2 := by
  rw [toOrdinal_eq, toOrdinal_eq]
  rcases h with hlt | ⟨rfl, hmo | ⟨rfl, hd⟩⟩
  · have e1 : daysBeforeMonth y mo + d ≤ daysBeforeMonth y (mo + 1) := by
      rw [daysBeforeMonth_succ y mo hmo1]; omega
    have e2 : daysBeforeMonth y (mo + 1) ≤ daysBeforeMonth y 13 :=
      daysBeforeMonth_mono y (by omega) (by omega)
    have e3 := daysBeforeMonth_13 y
    have e4 := daysBeforeYear_succ y hy
    have e5 : daysBeforeYear (y + 1) ≤ daysBeforeYear y2 :=
      daysBeforeYear_mono (by omega) (by omega)
    split_ifs at e3 e4 <;> omega
  · have e1 : daysBeforeMonth y mo + d ≤ daysBeforeMonth y (mo + 1) := by
      rw [daysBeforeMonth_succ y mo hmo1]; omega
    have e2 : daysBeforeMonth y (mo + 1) ≤ daysBeforeMonth y mo2 :=
      daysBeforeMonth_mono y (by omega) (by omega)
    omega
  · omega

/-- On valid field ranges the microsecond score `sortVal` is strictly
monotone in the lexicographic field order of naive datetimes: the agreement
of the sort key with Python's naive comparison. -/
theorem sortVal_lt_of_fieldsLt {a b : Datetime} (ha : a.Valid) (hb : b.Valid)
    (hta : a.tzOffsetMinutes = none) (htb : b.tzOffsetMinutes = none)
    (h : a.fieldsLt b) : a.sortVal < b.sortVal := by
  obtain ⟨hy1, hy2, hm1, hm2, hd1, hd2, hh, hmi, hs, hus⟩ := ha
  obtain ⟨gy1, gy2, gm1, gm2, gd1, gd2, gh, gmi, gs, gus⟩ := hb
  have hord : (a.year < b.year ∨ (a.year = b.year ∧
      (a.month < b.month ∨ (a.month = b.month ∧ a.day < b.day)))) →
      ((toOrdinal a.year a.month a.day : Nat) : Int) <
        ((toOrdinal b.year b.month b.day : Nat) : Int) := by
    intro hc
    exact_mod_cast toOrdinal_lt hy1 hm1 hm2 hd2 gm1 gd1 hc
  simp only [Datetime.sortVal, Datetime.toUtcEpoch, Datetime.fieldsSeconds, hta, htb,
    Option.getD_none, zero_mul, sub_zero, epochOrdinal]
  unfold Datetime.fieldsLt at h
  rcases h with h1 | ⟨e1, h2 | ⟨e2, h3 | ⟨e3, h4 | ⟨e4, h5 | ⟨e5, h6 | ⟨e6, h7⟩⟩⟩⟩⟩⟩
  · have := hord (Or.inl h1); omega
  · have := hord (Or.inr ⟨e1, Or.inl h2⟩); omega
  · have := hord (Or.inr ⟨e1, Or.inr ⟨e2, h3⟩⟩); omega
  · rw [e1, e2, e3]; omega
  · rw [e1, e2, e3, e4]; omega
  · rw [e1, e2, e3, e4, e5]; omega
  · rw [e1, e2, e3, e4, e5, e6]; omega

/-- A stable sort leaves every class of pairwise-tied elements in input
order: the filter by any predicate selecting only tied elements is
unchanged by `mergeSort`. -/
theorem mergeSort_filter_stable (items : List RSSItem) (p : RSSItem → Bool)
    (hp : ∀ x ∈ items.filter p, ∀ y ∈ items.filter p, itemLe x y = true) :
    (items.mergeSort itemLe).filter p = items.filter p := by
  have hsubl : (items.filter p).Sublist items := List.filter_sublist items
  have hpair : (items.filter p).Pairwise (fun a b => itemLe a b = true) :=
    List.pairwise_of_forall_mem_list hp
  have hsub2 : (items.filter p).Sublist (items.mergeSort itemLe) :=
    List.sublist_mergeSort itemLe_trans itemLe_total hpair hsubl
  have hself : (items.filter p).filter p = items.filter p := by
    apply List.filter_eq_self.mpr
    intro a ha; exact List.of_mem_filter ha
  have hsub3 : (items.filter p).Sublist ((items.mergeSort itemLe).filter p) := by
    have h2 := hsub2.filter p
    rwa [hself] at h2
  have hperm2 : ((items.mergeSort itemLe).filter p).Perm (items.filter p) :=
    (List.mergeSort_perm items itemLe).filter p
  exact (hsub3.eq_of_length hperm2.length_eq.symm).symm

set_option maxRecDepth 8000 in
/-- C4: the claim reads "for every list of FeedEntry values, rendering emits
the items sorted descending by timestamp, stably".  It fails on mixed feeds:
a page with a zone-suffixed `date_updated` yields an aware datetime while an
mtime-fallback page yields a naive one — both constructions are exhibited
here from reachable metadata — and on such a list Python's `sorted` raises
TypeError instead of emitting any sorted document. -/
theorem c4_counterexample :
    RSSItem.from_meta "tutorials/tz" metaTz appW = Except.ok itemTz
  ∧ RSSItem.from_meta "tutorials/b" (metaOf appW "tutorials/b") appW = Except.ok itemB
  ∧ itemTz.date.tzOffsetMinutes = some 60
  ∧ itemB.date.tzOffsetMinutes = none
  ∧ pySortedDesc [itemB, itemTz] =
      Except.error "TypeError: cannot compare offset-naive and offset-aware datetimes" :=
  ⟨by decide, by decide, by decide, by decide, by decide⟩

set_option maxRecDepth 8000 in
/-- C4 (amended): for every feed whose entry timestamps Python can compare —
all naive or all aware; otherwise `sorted` raises TypeError and no document
is emitted — rendering emits the entries sorted descending by timestamp
regardless of input order, and stably.  The list the document joins is the
non-raising outcome of the Python sort, a permutation of the input, pairwise
descending under Python's own comparison `pyLe` (lexicographic fields for
naive dates, instants for aware ones, at microsecond resolution), and both
kinds of Python ties — identical naive timestamps, and aware timestamps of
the same instant — keep exactly their relative input order; the rendered
document is that joined list between the channel prefix and suffix. -/
theorem c4_render_sorted_stable (f : RSSFeed)
    (hv : ∀ i ∈ f.items, i.date.Valid)
    (hc : datesComparable f.items) :
    pySortedDesc f.items = Except.ok f.sortedItems
  ∧ f.sortedItems.Perm f.items
  ∧ List.Pairwise (fun a b => Datetime.pyLe b.date a.date) f.sortedItems
  ∧ (∀ d : Datetime, f.sortedItems.filter (fun i => i.date == d)
        = f.items.filter (fun i => i.date == d))
  ∧ (∀ k : Int, f.sortedItems.filter (fun i => i.date.sortVal == k)
        = f.items.filter (fun i => i.date.sortVal == k))
  ∧ (∃ pre post : List Char,
        f.render.data =
          pre ++ (String.intercalate "\n" (f.sortedItems.map RSSItem.render)).data ++ post) := by
  have hperm : f.sortedItems.Perm f.items := List.mergeSort_perm f.items itemLe
  refine ⟨?_, hperm, ?_, fun d => ?_, fun k => ?_, ?_⟩
  · simp [pySortedDesc, hc, RSSFeed.sortedItems]
  · have hs2 : List.Pairwise (fun a b => itemLe a b = true) f.sortedItems :=
      List.sorted_mergeSort itemLe_trans itemLe_total f.items
    refine hs2.imp_of_mem ?_
    intro a b hain hbin hle
    have hav : a.date.Valid := hv a (hperm.mem_iff.mp hain)
    have hbv : b.date.Valid := hv b (hperm.mem_iff.mp hbin)
    have hle2 : b.date.sortVal ≤ a.date.sortVal := of_decide_eq_true hle
    rcases hc with hna | haw
    · have hta : a.date.tzOffsetMinutes = none := hna a (hperm.mem_iff.mp hain)
      have htb : b.date.tzOffsetMinutes = none := hna b (hperm.mem_iff.mp hbin)
      have hred : Datetime.pyLe b.date a.date = ¬ Datetime.fieldsLt a.date b.date := by
        unfold Datetime.pyLe; rw [htb, hta]
      rw [hred]
      intro hlt
      have := sortVal_lt_of_fieldsLt hav hbv hta htb hlt
      omega
    · obtain ⟨oa, hoa⟩ := Option.ne_none_iff_exists.mp (haw a (hperm.mem_iff.mp hain))
      obtain ⟨ob, hob⟩ := Option.ne_none_iff_exists.mp (haw b (hperm.mem_iff.mp hbin))
      have hred : Datetime.pyLe b.date a.date = (b.date.sortVal ≤ a.date.sortVal) := by
        unfold Datetime.pyLe; rw [← hob, ← hoa]
      rw [hred]
      exact hle2
  · refine mergeSort_filter_stable f.items _ ?_
    intro x hx y hy
    have hx2 : x.date = d := by simpa using List.of_mem_filter hx
    have hy2 : y.date = d := by simpa using List.of_mem_filter hy
    simp [itemLe, hx2, hy2]
  · refine mergeSort_filter_stable f.items _ ?_
    intro x hx y hy
    have hx2 : x.date.sortVal = k := by simpa using List.of_mem_filter hx
    have hy2 : y.date.sortVal = k := by simpa using List.of_mem_filter hy
    simp [itemLe, hx2, hy2]
  · refine ⟨("<?xml version='1.0' encoding='UTF-8'?>\n<rss xmlns:atom=\"http://www.w3.org/2005/Atom\" xmlns:content=\"http://purl.org/rss/1.0/modules/content/\" version=\"2.0\">\n  <channel>\n    <title>" : String).data ++ f.title.data ++ ("</title>\n    <link>" : String).data ++ f.link.data ++ ("</link>\n    <atom:link href=\"" : String).data ++ f.self_link.data ++ ("\" rel=\"self\"/>\n    <description>" : String).data ++ f.description.data ++ ("</description>\n    <language>" : String).data ++ f.language.data ++ ("</language>\n    <lastBuildDate>" : String).data ++ (_format_rfc_2822 f.last_build_date).data ++ ("</lastBuildDate>\n" : String).data,
      ("\n  </channel>\n</rss>\n        " : String).data, ?_⟩
    simp only [RSSFeed.render, RSSFeed.sortedItems, String.data_append, List.append_assoc]

theorem c4_witness :
    (∀ i ∈ feedW.items, i.date.Valid)
  ∧ datesComparable feedW.items
  ∧ (pySortedDesc feedW.items = Except.ok feedW.sortedItems
     ∧ feedW.sortedItems.Perm feedW.items
     ∧ List.Pairwise (fun a b => Datetime.pyLe b.date a.date) feedW.sortedItems
     ∧ (∀ d : Datetime, feedW.sortedItems.filter (fun i => i.date == d)
          = feedW.items.filter (fun i => i.date == d))
     ∧ (∀ k : Int, feedW.sortedItems.filter (fun i => i.date.sortVal == k)
          = feedW.items.filter (fun i => i.date.sortVal == k))
     ∧ (∃ pre post : List Char,
          feedW.render.data =
            pre ++ (String.intercalate "\n" (feedW.sortedItems.map RSSItem.render)).data ++ post)) :=
  ⟨by decide, by decide, c4_render_sorted_stable feedW (by decide) (by decide)⟩

set_option maxRecDepth 8000 in
/-- C6: in every rendered entry fragment the title, link, description and
author pass through `escape(..., quote=False)`, under which `<` becomes
`&lt;` and `&` becomes `&amp;` while `"` is left untouched, whereas the
`guid isPermaLink="true"` element carries the resolved URL verbatim with no
escaping. -/
theorem c6_escaping (i : RSSItem) :
    escapeChar false '<' = "&lt;"
  ∧ escapeChar false '&' = "&amp;"
  ∧ escapeChar false '"' = "\""
  ∧ strContains i.render ("<title>" ++ escape i.title false ++ "</title>")
  ∧ strContains i.render ("<link>" ++ escape i.url false ++ "</link>")
  ∧ strContains i.render ("<description>" ++ escape i.description false ++ "</description>")
  ∧ strContains i.render ("<author>" ++ escape i.author false ++ "</author>")
  ∧ strContains i.render ("<guid isPermaLink=\"true\">" ++ i.url ++ "</guid>") := by
  refine ⟨by decide, by decide, by decide, ?_, ?_, ?_, ?_, ?_⟩
  · refine ⟨("<item>\n  " : String).data,
      (("\n  <link>" ++ escape i.url false ++ "</link>\n  <description>" ++ escape i.description false ++ "</description>\n  <author>" ++ escape i.author false ++ "</author>\n  <guid isPermaLink=\"true\">" ++ i.url ++ "</guid>\n  <pubDate>" ++ _format_rfc_2822 i.date ++ "</pubDate>\n</item>" : String)).data, ?_⟩
    simp only [RSSItem.render, String.data_append, List.cons_append, List.nil_append, List.append_assoc]
  · refine ⟨(("<item>\n  <title>" ++ escape i.title false ++ "</title>\n  " : String)).data,
      (("\n  <description>" ++ escape i.description false ++ "</description>\n  <author>" ++ escape i.author false ++ "</author>\n  <guid isPermaLink=\"true\">" ++ i.url ++ "</guid>\n  <pubDate>" ++ _format_rfc_2822 i.date ++ "</pubDate>\n</item>" : String)).data, ?_⟩
    simp only [RSSItem.render, String.data_append, List.cons_append, List.nil_append, List.append_assoc]
  · refine ⟨(("<item>\n  <title>" ++ escape i.title false ++ "</title>\n  <link>" ++ escape i.url false ++ "</link>\n  " : String)).data,
      (("\n  <author>" ++ escape i.author false ++ "</author>\n  <guid isPermaLink=\"true\">" ++ i.url ++ "</guid>\n  <pubDate>" ++ _format_rfc_2822 i.date ++ "</pubDate>\n</item>" : String)).data, ?_⟩
    simp only [RSSItem.render, String.data_append, List.cons_append, List.nil_append, List.append_assoc]
  · refine ⟨(("<item>\n  <title>" ++ escape i.title false ++ "</title>\n  <link>" ++ escape i.url false ++ "</link>\n  <description>" ++ escape i.description false ++ "</description>\n  " : String)).data,
      (("\n  <guid isPermaLink=\"true\">" ++ i.url ++ "</guid>\n  <pubDate>" ++ _format_rfc_2822 i.date ++ "</pubDate>\n</item>" : String)).data, ?_⟩
    simp only [RSSItem.render, String.data_append, List.cons_append, List.nil_append, List.append_assoc]
  · refine ⟨(("<item>\n  <title>" ++ escape i.title false ++ "</title>\n  <link>" ++ escape i.url false ++ "</link>\n  <description>" ++ escape i.description false ++ "</description>\n  <author>" ++ escape i.author false ++ "</author>\n  " : String)).data,
      (("\n  <pubDate>" ++ _format_rfc_2822 i.date ++ "</pubDate>\n</item>" : String)).data, ?_⟩
    simp only [RSSItem.render, String.data_append, List.cons_append, List.nil_append, List.append_assoc]

set_option maxRecDepth 8000 in
/-- C8: for a page whose metadata carries `date_updated =
"2024-01-15T10:00:00"` (page `tutorials/a` of `appW`), construction parses
exactly that timestamp and the rendered entry's pubDate element is exactly
`<pubDate>Mon, 15 Jan 2024 10:00:00 GMT</pubDate>`. -/
theorem c8_round_trip :
    fromisoformatOpt "2024-01-15T10:00:00" = some ⟨2024, 1, 15, 10, 0, 0, 0, none⟩
  ∧ RSSItem.from_meta "tutorials/a" (metaOf appW "tutorials/a") appW = Except.ok itemA
  ∧ _format_rfc_2822 itemA.date = "Mon, 15 Jan 2024 10:00:00 GMT"
  ∧ strContains itemA.render "<pubDate>Mon, 15 Jan 2024 10:00:00 GMT</pubDate>" := by
  refine ⟨by decide, by decide, by decide,
    ("<item>\n  <title>A</title>\n  <link>https://www.pyopensci.org/python-package-guide/tutorials/a.html</link>\n  <description>dA</description>\n  <author>pyOpenSci</author>\n  <guid isPermaLink=\"true\">https://www.pyopensci.org/python-package-guide/tutorials/a.html</guid>\n  " : String).data,
    ("\n</item>" : String).data, by decide⟩

/-- C9: the build step's selection is exactly the path-prefix filter: a page
is selected iff it is a known page and its identifier starts with
`tutorials/`; and when construction succeeds the feed holds one entry per
selected page. -/
theorem c9_prefix_selection (app : App) (t : String) :
    (t ∈ tutorialPages app ↔ t ∈ pageNames app ∧ startswith t "tutorials/" = true)
  ∧ (∀ items,
        mapExcept (fun p => RSSItem.from_meta p (metaOf app p) app)
          (tutorialPages app) = Except.ok items →
        items.length = (tutorialPages app).length) := by
  constructor
  · simp [tutorialPages, List.mem_filter]
  · intro items h
    exact mapExcept_ok_length _ _ _ h

set_option maxRecDepth 8000 in
theorem c9_witness :
    "tutorials/a" ∈ tutorialPages appW
  ∧ ¬ ("index" ∈ tutorialPages appW)
  ∧ ([itemA, itemB] : List RSSItem).length = (tutorialPages appW).length :=
  ⟨(c9_prefix_selection appW "tutorials/a").1.mpr ⟨by decide, by decide⟩,
   fun hmem => absurd ((c9_prefix_selection appW "index").1.mp hmem).2 (by decide),
   (c9_prefix_selection appW "index").2 [itemA, itemB] (by decide)⟩

/-- C10: rendering does not modify the feed.  With the receiver threaded as
explicit state, the post-state equals the receiver, in particular `items`
still holds the input entries in input order; the returned document is
`RSSFeed.render`, and the descending list it joins is a separate
permutation of `items` (the sort happened on the fresh list `sorted`
returned, not in place). -/
theorem c10_render_preserves_feed (f : RSSFeed) :
    (f.renderState).2 = f
  ∧ (f.renderState).2.items = f.items
  ∧ (f.renderState).1 = f.render
  ∧ f.sortedItems.Perm f.items :=
  ⟨rfl, rfl, rfl, List.mergeSort_perm f.items itemLe⟩
